import Mathlib

/-!
Verification development for pkg/release/annotate.go of helm-operator.

The Go file defines three functions:
  annotatedWithResourceID  (release ownership verification)
  annotateWithResourceID   (release ownership claiming)
  releaseManifestToUnstructured (manifest decomposition)
plus the constant AntecedentAnnotation (the ownership annotation key).

Shallow-embedding conventions used below:
  A resource identifier (flux resource.ID) appears in the Go code only
  through its String() serialisation, so it is modelled as the String it
  serialises to.
  External collaborators (the dynamic client, the discovery REST mapper,
  the YAML parser of ghodss/yaml and releaseutil.SplitManifests of helm)
  are modelled by their observable behaviour: a Cluster record of
  response functions, and manifest documents given by their parse
  outcome.
  releaseutil.SplitManifests returns a Go map of documents and the code
  ranges over that map, so the order in which documents reach the loop
  body is unspecified by the Go language semantics; the embedding
  therefore takes the sequence of documents in the order the range loop
  yields them as input.
  Requests issued against the backend are recorded in a trace
  (List Req), which a separate Store interpreter can replay; this makes
  read-only behaviour and patch effects provable statements.
-/

/-- Group, version and kind of a manifest document, as returned by
unstructured GroupVersionKind in the Go code. -/
structure GroupVersionKind where
  group : String
  version : String
  kind : String
deriving DecidableEq

/-- The projection of an unstructured Kubernetes object that the Go code
reads: its group version kind, namespace, name and annotation map.
The field ns models GetNamespace and SetNamespace. -/
structure KObject where
  gvk : GroupVersionKind
  ns : String
  name : String
  annotations : List (String × String)
deriving DecidableEq

/-- Result of restMap.RESTMapping for a group kind and version: the
backend addressable resource. Errors of RESTMapping are modelled as
Option none at the call sites. -/
structure RESTMapping where
  resource : String
deriving DecidableEq

/-- Errors returned by the backend, classified exactly as the predicates
used in the Go code classify them: net.IsConnectionReset,
errors.IsInternalError, errors.IsTimeout, errors.IsTooManyRequests and
errors.SuggestsClientDelay, plus not-found and a catch-all. -/
inductive KubeErr where
  | connectionReset
  | internalError
  | timeout
  | tooManyRequests
  | suggestsDelay
  | notFound
  | other (msg : String)
deriving DecidableEq

/-- Outcome of one Get call against the dynamic client: either the live
object or an error. -/
inductive FetchResult where
  | ok (res : KObject)
  | err (e : KubeErr)
deriving DecidableEq

/-- A single document of the split release manifest, given by the
outcome of yaml.Unmarshal and, for list kinds, of ToList.
parseFail models a document on which yaml.Unmarshal errors.
plain models an ordinary object document.
listDoc models a document for which IsList holds: it carries the wrapper
object itself and the ToList outcome (none when ToList errors). -/
inductive ManifestDoc where
  | parseFail
  | plain (o : KObject)
  | listDoc (wrapper : KObject) (items : Option (List KObject))
deriving DecidableEq

/-- The helm.Release projection used by the Go code: its namespace and
its manifest. The manifest field is the sequence of split documents in
the order the range loop over the SplitManifests map yields them; that
order is unspecified by Go relative to the textual manifest order. -/
structure Release where
  ns : String
  manifest : List ManifestDoc
deriving DecidableEq

/-- A request issued against the dynamic client: a namespaced Get or a
namespaced merge Patch with a body. -/
inductive Req where
  | get (resource ns name : String)
  | patch (resource ns name : String) (body : String)
deriving DecidableEq

/-- True for Get requests. -/
def Req.isGet : Req → Bool
  | Req.get _ _ _ => true
  | Req.patch _ _ _ _ => false

/-- Log entries emitted by annotateWithResourceID through its logger. -/
inductive LogEntry where
  | restMappingFailed (gvk : GroupVersionKind)
  | patchFailed (kind name : String)
deriving DecidableEq

/-- Behaviour of the external collaborators reached through the
kubeConfig: construction of the dynamic client, construction of the
discovery REST mapper, the mapping table, per-attempt Get outcomes and
Patch outcomes. -/
structure Cluster where
  newClientErr : Option KubeErr
  discoveryErr : Option KubeErr
  restMapping : GroupVersionKind → Option RESTMapping
  get : String → String → String → Nat → FetchResult
  patchErr : String → String → String → Option KubeErr

/-- The ownership annotation key; the Go constant is named
AntecedentAnnotation. -/
def antecedentAnnotationKey : String := "helm.fluxcd.io/antecedent"

/-- Embedding of releaseManifestToUnstructured: the loop body applied to
the documents in the order the range loop yields them. An unmarshal
error skips the document, a list document is replaced by its items when
ToList succeeds and skipped when ToList errors (the error is only
logged), any other document is appended as is. -/
def releaseManifestToUnstructured : List ManifestDoc → List KObject
  | [] => []
  | ManifestDoc.parseFail :: rest => releaseManifestToUnstructured rest
  | ManifestDoc.listDoc _ none :: rest => releaseManifestToUnstructured rest
  | ManifestDoc.listDoc _ (some items) :: rest => items ++ releaseManifestToUnstructured rest
  | ManifestDoc.plain o :: rest => o :: releaseManifestToUnstructured rest

/-- Classification of errors the retry closure treats as transient, in
the order the Go code tests them: connection reset, internal error,
timeout, too many requests, then a suggested client delay. -/
def isTransient : KubeErr → Bool
  | KubeErr.connectionReset => true
  | KubeErr.internalError => true
  | KubeErr.timeout => true
  | KubeErr.tooManyRequests => true
  | KubeErr.suggestsDelay => true
  | KubeErr.notFound => false
  | KubeErr.other _ => false

/-- True when the retry condition function stops the backoff loop: a
successful Get, or an error that is not transient (the condition then
returns that error). -/
def fetchDone : FetchResult → Bool
  | FetchResult.ok _ => true
  | FetchResult.err e => ! isTransient e

/-- Steps field of retry.DefaultBackoff in client-go: the condition
function of wait.ExponentialBackoff runs at most four times. -/
def retryDefaultSteps : Nat := 4

/-- Embedding of the wait.ExponentialBackoff block around the Get call.
The closure writes res and err on every attempt, so after the loop the
captured pair holds the outcome of the last attempt that ran; the loop
stops early on success or on a non-transient error and otherwise runs
until the steps are exhausted. Arguments: the per-attempt outcome
function, the current attempt index, and the number of further attempts
allowed after the current one. Returns the last outcome together with
the number of attempts performed. -/
def retryFetch (fetch : Nat → FetchResult) : Nat → Nat → FetchResult × Nat
  | i, 0 => (fetch i, i + 1)
  | i, remaining + 1 =>
    let r := fetch i
    if fetchDone r then (r, i + 1) else retryFetch fetch (i + 1) remaining

/-- Namespace used to address a descriptor: the Go code overwrites an
empty namespace with the namespace of the release. -/
def defaultedNs (relNs ns : String) : String :=
  if ns = "" then relNs else ns

/-- The per-descriptor loop of annotatedWithResourceID. For each object:
resolve the REST mapping (an error skips the object), default the
namespace, Get the live object under the backoff wrapper, abort on a
surfaced error, return on the first object carrying the antecedent
annotation, otherwise continue; an exhausted list yields (true, empty,
no error). The issued Get requests are recorded alongside. -/
def verifyObjs (c : Cluster) (relNs rid : String) :
    List KObject → (Bool × String × Option KubeErr) × List Req
  | [] => ((true, "", none), [])
  | o :: rest =>
    match c.restMapping o.gvk with
    | none => verifyObjs c relNs rid rest
    | some m =>
      let ns := defaultedNs relNs o.ns
      let rf := retryFetch (c.get m.resource ns o.name) 0 (retryDefaultSteps - 1)
      let reqs := List.replicate rf.2 (Req.get m.resource ns o.name)
      match rf.1 with
      | FetchResult.err e => ((false, "", some e), reqs)
      | FetchResult.ok res =>
        match res.annotations.lookup antecedentAnnotationKey with
        | some v => ((v == rid, v, none), reqs)
        | none =>
          let tail := verifyObjs c relNs rid rest
          (tail.1, reqs ++ tail.2)

/-- Embedding of annotatedWithResourceID. A dynamic client construction
error or a discovery mapper construction error aborts with
(false, empty, that error); otherwise the loop above runs over the
decomposed manifest. The second component is the trace of requests
issued against the dynamic client. -/
def annotatedWithResourceID (c : Cluster) (rel : Release) (rid : String) :
    (Bool × String × Option KubeErr) × List Req :=
  match c.newClientErr with
  | some e => ((false, "", some e), [])
  | none =>
    match c.discoveryErr with
    | some e => ((false, "", some e), [])
    | none => verifyObjs c rel.ns rid (releaseManifestToUnstructured rel.manifest)

/-- The merge patch body built once before the loop of
annotateWithResourceID by string concatenation, with the serialised
resource identifier inserted verbatim and no JSON escaping. -/
def annotationJSONString (rid : String) : String :=
  "\x7b\"metadata\":\x7b\"annotations\":\x7b\"" ++ antecedentAnnotationKey ++ "\":\""
    ++ rid ++ "\"\x7d\x7d\x7d"

/-- The per-descriptor loop of annotateWithResourceID. A REST mapping
error is logged and the object skipped; otherwise the namespace is
defaulted and a merge Patch with the shared body is issued; a Patch
error is only logged. The loop never aborts. Returns the issued
requests and the emitted log entries. -/
def claimObjs (c : Cluster) (relNs body : String) :
    List KObject → List Req × List LogEntry
  | [] => ([], [])
  | o :: rest =>
    match c.restMapping o.gvk with
    | none =>
      let t := claimObjs c relNs body rest
      (t.1, LogEntry.restMappingFailed o.gvk :: t.2)
    | some m =>
      let ns := defaultedNs relNs o.ns
      let t := claimObjs c relNs body rest
      match c.patchErr m.resource ns o.name with
      | some _ => (Req.patch m.resource ns o.name body :: t.1,
          LogEntry.patchFailed o.gvk.kind o.name :: t.2)
      | none => (Req.patch m.resource ns o.name body :: t.1, t.2)

/-- Embedding of annotateWithResourceID. A dynamic client construction
error or a discovery mapper construction error is returned; once the
loop is entered the function always returns no error. The second and
third components are the issued requests and the log entries. -/
def annotateWithResourceID (c : Cluster) (rel : Release) (rid : String) :
    Option KubeErr × List Req × List LogEntry :=
  match c.newClientErr with
  | some e => (some e, [], [])
  | none =>
    match c.discoveryErr with
    | some e => (some e, [], [])
    | none =>
      let body := annotationJSONString rid
      let t := claimObjs c rel.ns body (releaseManifestToUnstructured rel.manifest)
      (none, t.1, t.2)

/-!
JSON values and the merge patch semantics of the backend (RFC 7386),
used to give meaning to the Patch requests issued by the claim loop.
Numbers are kept as their lexeme, which is enough because no claim
depends on numeric interpretation.
-/

/-- A JSON value. Object members are an association list in document
order; the parser below never produces duplicate keys (later members
win, as Go json decoding into a map does). -/
inductive Json where
  | null
  | bool (b : Bool)
  | num (lexeme : String)
  | str (s : String)
  | arr (elems : List Json)
  | obj (fields : List (String × Json))

/-- First binding of a key in an object field list. -/
def lookupKey (k : String) : List (String × Json) → Option Json
  | [] => none
  | (k2, v) :: rest => if k2 = k then some v else lookupKey k rest

/-- Remove every binding of a key. -/
def eraseKey (k : String) : List (String × Json) → List (String × Json)
  | [] => []
  | (k2, v) :: rest => if k2 = k then eraseKey k rest else (k2, v) :: eraseKey k rest

/-- Replace the first binding of a key, or append a new binding. -/
def setKey (k : String) (v : Json) : List (String × Json) → List (String × Json)
  | [] => [(k, v)]
  | (k2, w) :: rest => if k2 = k then (k, v) :: rest else (k2, w) :: setKey k v rest

/-- Whether a key is bound in a field list. -/
def keyMemB (k : String) : List (String × Json) → Bool
  | [] => false
  | (k2, _) :: rest => if k2 = k then true else keyMemB k rest

/-- Prepend a member parsed earlier than the members of fs, letting a
later duplicate key win as Go json decoding into a map does. -/
def consField (k : String) (v : Json) (fs : List (String × Json)) : List (String × Json) :=
  if keyMemB k fs then fs else (k, v) :: fs

/-- True only for the null value. -/
def isNullB : Json → Bool
  | Json.null => true
  | _ => false

/-- Value of a key in a field list, with absent keys read as null, as
the merge patch algorithm of RFC 7386 does. -/
def lookupD (k : String) (tf : List (String × Json)) : Json :=
  match lookupKey k tf with
  | some v => v
  | none => Json.null

mutual

/-- Well-formedness needed by merge patch idempotence: every object
reachable through object members has pairwise distinct keys. The
parser below only produces such values. -/
def jsonWF : Json → Bool
  | Json.obj fs => keysNodupB fs && fieldsWF fs
  | Json.null => true
  | Json.bool _ => true
  | Json.num _ => true
  | Json.str _ => true
  | Json.arr _ => true

/-- All member values are well formed. -/
def fieldsWF : List (String × Json) → Bool
  | [] => true
  | kv :: rest => jsonWF kv.2 && fieldsWF rest

/-- Keys of a field list are pairwise distinct. -/
def keysNodupB : List (String × Json) → Bool
  | [] => true
  | (k, _) :: rest => ! keyMemB k rest && keysNodupB rest

end

/-- Members of a JSON object, empty for any other value; RFC 7386
treats a non-object merge target as empty. -/
def objFields : Json → List (String × Json)
  | Json.obj tf => tf
  | _ => []

mutual

/-- Merge patch application of RFC 7386: jsonMergePatch patch target.
An object patch merges member-wise into the target (a non-object target
is treated as an empty object); any other patch replaces the target. -/
def jsonMergePatch : Json → Json → Json
  | Json.obj pf, t => Json.obj (mergeFields pf (objFields t))
  | Json.null, _ => Json.null
  | Json.bool b, _ => Json.bool b
  | Json.num l, _ => Json.num l
  | Json.str s, _ => Json.str s
  | Json.arr xs, _ => Json.arr xs
termination_by p _ => sizeOf p
decreasing_by all_goals simp_wf

/-- Fold the patch members into the target field list. -/
def mergeFields : List (String × Json) → List (String × Json) → List (String × Json)
  | [], tf => tf
  | (k, v) :: rest, tf => mergeFields rest (applyField k v tf)
termination_by pf _ => sizeOf pf
decreasing_by all_goals simp_wf <;> omega

/-- One patch member applied to the target field list: a null value
removes the key, any other value is merge patched into the current
binding of the key. -/
def applyField (k : String) (v : Json) (tf : List (String × Json)) : List (String × Json) :=
  if isNullB v then eraseKey k tf
  else setKey k (jsonMergePatch v (lookupD k tf)) tf
termination_by sizeOf v + 1
decreasing_by all_goals simp_wf

end

/-!
A JSON reader, used to decide whether the byte strings sent as merge
patch bodies are well formed JSON and which value they denote. It
follows RFC 8259 except that numbers are kept as their lexeme and that
later duplicate object members win (as Go json decoding does).
-/

/-- JSON whitespace. -/
def isJsonWs (c : Char) : Bool :=
  c = ' ' || c = '\t' || c = '\n' || c = '\r'

/-- Drop leading JSON whitespace. -/
def skipWs (cs : List Char) : List Char :=
  cs.dropWhile isJsonWs

/-- Value of a hexadecimal digit. -/
def hexVal (c : Char) : Option Nat :=
  if '0' ≤ c ∧ c ≤ '9' then some (c.toNat - 48)
  else if 'a' ≤ c ∧ c ≤ 'f' then some (c.toNat - 87)
  else if 'A' ≤ c ∧ c ≤ 'F' then some (c.toNat - 70)
  else none

/-- Decoded character of a single character escape sequence. -/
def decodeEscape (e : Char) : Option Char :=
  if e = '"' then some '"'
  else if e = '\\' then some '\\'
  else if e = '/' then some '/'
  else if e = 'b' then some '\x08'
  else if e = 'f' then some '\x0c'
  else if e = 'n' then some '\n'
  else if e = 'r' then some '\r'
  else if e = 't' then some '\t'
  else none

/-- Read the body of a JSON string after its opening quote: the decoded
content and the input after the closing quote. Unescaped control
characters, bad escapes and a missing closing quote are errors. -/
def parseStringBody : List Char → Option (List Char × List Char)
  | [] => none
  | c :: rest =>
    if c = '"' then some ([], rest)
    else if c = '\\' then
      match rest with
      | [] => none
      | e :: rest2 =>
        if e = 'u' then
          match rest2 with
          | h1 :: h2 :: h3 :: h4 :: r =>
            match hexVal h1, hexVal h2, hexVal h3, hexVal h4 with
            | some a, some b, some c2, some d =>
              (parseStringBody r).map
                (fun p => (Char.ofNat (((a * 16 + b) * 16 + c2) * 16 + d) :: p.1, p.2))
            | _, _, _, _ => none
          | _ => none
        else
          match decodeEscape e with
          | none => none
          | some d => (parseStringBody rest2).map (fun p => (d :: p.1, p.2))
    else if c.toNat < 32 then none
    else (parseStringBody rest).map (fun p => (c :: p.1, p.2))
termination_by structural cs => cs

/-- Characters that may continue a JSON number lexeme. -/
def isNumChar (c : Char) : Bool :=
  c.isDigit || c = '-' || c = '+' || c = '.' || c = 'e' || c = 'E'

mutual

/-- Read one JSON value from the input, returning it with the rest of
the input. The fuel bounds the nesting of containers; parseJson below
supplies enough for its whole input. -/
def parseValue : Nat → List Char → Option (Json × List Char)
  | 0, _ => none
  | fuel + 1, cs =>
    match skipWs cs with
    | [] => none
    | c :: r =>
      if c = '"' then (parseStringBody r).map (fun p => (Json.str (String.mk p.1), p.2))
      else if c = '\x7b' then
        match skipWs r with
        | c2 :: r2 =>
          if c2 = '\x7d' then some (Json.obj [], r2)
          else (parseMembers fuel (skipWs r)).map (fun p => (Json.obj p.1, p.2))
        | [] => (parseMembers fuel (skipWs r)).map (fun p => (Json.obj p.1, p.2))
      else if c = '[' then
        match skipWs r with
        | c2 :: r2 =>
          if c2 = ']' then some (Json.arr [], r2)
          else (parseElems fuel (skipWs r)).map (fun p => (Json.arr p.1, p.2))
        | [] => (parseElems fuel (skipWs r)).map (fun p => (Json.arr p.1, p.2))
      else if c = 't' then
        match r with
        | 'r' :: 'u' :: 'e' :: r2 => some (Json.bool true, r2)
        | _ => none
      else if c = 'f' then
        match r with
        | 'a' :: 'l' :: 's' :: 'e' :: r2 => some (Json.bool false, r2)
        | _ => none
      else if c = 'n' then
        match r with
        | 'u' :: 'l' :: 'l' :: r2 => some (Json.null, r2)
        | _ => none
      else if c.isDigit || c = '-' then
        some (Json.num (String.mk ((c :: r).takeWhile isNumChar)),
          (c :: r).dropWhile isNumChar)
      else none

/-- Read the members of an object after its opening brace, knowing the
object is not empty, up to and over the closing brace. -/
def parseMembers : Nat → List Char → Option (List (String × Json) × List Char)
  | 0, _ => none
  | fuel + 1, cs =>
    match skipWs cs with
    | [] => none
    | c :: r =>
      if c = '"' then
        match parseStringBody r with
        | none => none
        | some (kcs, r2) =>
          match skipWs r2 with
          | [] => none
          | c2 :: r3 =>
            if c2 = ':' then
              match parseValue fuel r3 with
              | none => none
              | some (v, r4) =>
                match skipWs r4 with
                | [] => none
                | c3 :: r5 =>
                  if c3 = ',' then
                    (parseMembers fuel r5).map
                      (fun p => (consField (String.mk kcs) v p.1, p.2))
                  else if c3 = '\x7d' then some ([(String.mk kcs, v)], r5)
                  else none
            else none
      else none

/-- Read the elements of an array after its opening bracket, knowing the
array is not empty, up to and over the closing bracket. -/
def parseElems : Nat → List Char → Option (List Json × List Char)
  | 0, _ => none
  | fuel + 1, cs =>
    match parseValue fuel cs with
    | none => none
    | some (v, r) =>
      match skipWs r with
      | [] => none
      | c :: r2 =>
        if c = ',' then (parseElems fuel r2).map (fun p => (v :: p.1, p.2))
        else if c = ']' then some ([v], r2)
        else none

end

/-- Whether a byte string is a well formed JSON document, and the value
it denotes: read one value and require only whitespace after it. -/
def parseJson (s : String) : Option Json :=
  match parseValue (s.data.length + 1) s.data with
  | some (j, rest) => if skipWs rest = [] then some j else none
  | none => none

/-!
Backend state and replay of a request trace. A Get leaves the state
unchanged; a merge Patch on an existing object applies RFC 7386 merge
of its parsed body, fails without effect when the object is missing,
when the backend rejects the patch, or when the body is not well formed
JSON.
-/

/-- Address of an object in the backend: resource, namespace, name. -/
abbrev Addr := String × String × String

/-- Backend state: the stored objects, and which addresses reject
patches (injected server side failures, constant over a trace). -/
structure Store where
  objects : Addr → Option Json
  rejects : Addr → Bool

/-- Effect of one request on the backend state. -/
def stepReq (w : Store) : Req → Store
  | Req.get _ _ _ => w
  | Req.patch resource ns name body =>
    match w.objects (resource, ns, name) with
    | none => w
    | some o =>
      if w.rejects (resource, ns, name) then w
      else
        match parseJson body with
        | none => w
        | some p =>
          Store.mk
            (fun a => if a = (resource, ns, name) then some (jsonMergePatch p o)
                      else w.objects a)
            w.rejects

/-- Replay a request trace against the backend state. -/
def applyReqs (w : Store) : List Req → Store
  | [] => w
  | r :: rest => applyReqs (stepReq w r) rest

/-- The pointwise effect of one patch with the given body on the value
stored at its target address, for a target with the given reject flag. -/
def patchStep (rej : Bool) (body : String) : Option Json → Option Json
  | none => none
  | some o =>
    if rej then some o
    else
      match parseJson body with
      | none => some o
      | some p => some (jsonMergePatch p o)

/-- Number of patch requests of a trace aimed at an address. -/
def patchCount (a : Addr) : List Req → Nat
  | [] => 0
  | Req.get _ _ _ :: rest => patchCount a rest
  | Req.patch resource ns name _ :: rest =>
    (if a = (resource, ns, name) then 1 else 0) + patchCount a rest

/-!
Specification side definitions, written from the words of the spec, to
be compared with the code level definitions above.
-/

/-- The JSON value the merge patch body is intended to denote: an object
setting exactly the antecedent annotation key to the identifier. -/
def antecedentPatch (rid : String) : Json :=
  Json.obj [("metadata",
    Json.obj [("annotations",
      Json.obj [(antecedentAnnotationKey, Json.str rid)])])]

/-- Field of a JSON object, none on non-objects. -/
def jGetField (j : Json) (f : String) : Option Json :=
  match j with
  | Json.obj fs => lookupKey f fs
  | _ => none

/-- Field of the metadata object of a JSON object. -/
def jMetaField (j : Json) (f : String) : Option Json :=
  (jGetField j "metadata").bind (fun m => jGetField m f)

/-- Annotation value of a JSON object under metadata annotations. -/
def jAnnVal (j : Json) (k : String) : Option Json :=
  (jMetaField j "annotations").bind (fun a => jGetField a k)

/-- Contribution of one split document to the descriptor sequence, per
the spec: an unparseable document contributes nothing, a list wrapper
contributes exactly its items (never itself), any other document
contributes itself. -/
def docContribution : ManifestDoc → List KObject
  | ManifestDoc.parseFail => []
  | ManifestDoc.listDoc _ none => []
  | ManifestDoc.listDoc _ (some items) => items
  | ManifestDoc.plain o => o :: []

/-- A descriptor the verification loop passes over without an
informative outcome: its kind does not resolve, or its live object is
fetched successfully and carries no antecedent annotation. -/
def passesThrough (c : Cluster) (relNs : String) (o : KObject) : Bool :=
  match c.restMapping o.gvk with
  | none => true
  | some m =>
    match (retryFetch (c.get m.resource (defaultedNs relNs o.ns) o.name) 0
        (retryDefaultSteps - 1)).1 with
    | FetchResult.ok res =>
      (res.annotations.lookup antecedentAnnotationKey).isNone
    | FetchResult.err _ => false

/-- The Get requests the verification loop issues for a descriptor it
does not stop at. -/
def fetchReqsOf (c : Cluster) (relNs : String) (o : KObject) : List Req :=
  match c.restMapping o.gvk with
  | none => []
  | some m =>
    let ns := defaultedNs relNs o.ns
    List.replicate (retryFetch (c.get m.resource ns o.name) 0 (retryDefaultSteps - 1)).2
      (Req.get m.resource ns o.name)

/-- The Patch request the claim loop issues for a descriptor, if any. -/
def claimReqOf (c : Cluster) (relNs body : String) (o : KObject) : List Req :=
  match c.restMapping o.gvk with
  | none => []
  | some m => Req.patch m.resource (defaultedNs relNs o.ns) o.name body :: []

/-- The log entries the claim loop emits for a descriptor. -/
def claimLogOf (c : Cluster) (relNs : String) (o : KObject) : List LogEntry :=
  match c.restMapping o.gvk with
  | none => LogEntry.restMappingFailed o.gvk :: []
  | some m =>
    match c.patchErr m.resource (defaultedNs relNs o.ns) o.name with
    | some _ => LogEntry.patchFailed o.gvk.kind o.name :: []
    | none => []

/-- A character an identifier may contain so that splicing it into a
JSON string literal leaves the literal intact: not a quote, not a
backslash, not a control character. -/
def jsonCleanChar (c : Char) : Bool :=
  c ≠ '"' && c ≠ '\\' && 32 ≤ c.toNat

/-- An identifier whose serialised form can be spliced verbatim into a
JSON string literal. -/
def jsonClean (s : String) : Bool :=
  s.data.all jsonCleanChar

/-!
Decomposition: characterisation and order.
-/

/-- The decomposition loop emits, document by document in the order the
documents reach it, exactly the contribution of each document. -/
theorem releaseManifestToUnstructured_eq_flatMap (docs : List ManifestDoc) :
    releaseManifestToUnstructured docs = docs.flatMap docContribution := by
  induction docs with
  | nil => rfl
  | cons d rest ih =>
    cases d with
    | parseFail => simpa [releaseManifestToUnstructured, docContribution] using ih
    | plain o => simpa [releaseManifestToUnstructured, docContribution] using ih
    | listDoc w items =>
      cases items with
      | none => simpa [releaseManifestToUnstructured, docContribution] using ih
      | some l => simpa [releaseManifestToUnstructured, docContribution] using ih

/-- Sample kind used by concrete scenarios. -/
def sampleGvk : GroupVersionKind :=
  GroupVersionKind.mk "apps" "v1" "Deployment"

/-- Sample descriptor named a. -/
def objA : KObject := KObject.mk sampleGvk "default" "a" []

/-- Sample descriptor named b. -/
def objB : KObject := KObject.mk sampleGvk "default" "b" []

/-- Sample descriptor named c. -/
def objC : KObject := KObject.mk sampleGvk "default" "c" []

/-!
Verification loop lemmas.
-/

/-- Processing a descriptor the loop passes over only contributes its
Get requests and leaves the outcome to the rest of the list. -/
theorem verifyObjs_cons_pass (c : Cluster) (relNs rid : String) (o : KObject)
    (rest : List KObject) (h : passesThrough c relNs o = true) :
    verifyObjs c relNs rid (o :: rest) =
      ((verifyObjs c relNs rid rest).1,
        fetchReqsOf c relNs o ++ (verifyObjs c relNs rid rest).2) := by
  unfold passesThrough at h
  cases hm : c.restMapping o.gvk with
  | none => simp [verifyObjs, fetchReqsOf, hm]
  | some m =>
    simp only [hm] at h
    cases hr : (retryFetch (c.get m.resource (defaultedNs relNs o.ns) o.name) 0
        (retryDefaultSteps - 1)).1 with
    | ok res =>
      simp only [hr] at h
      cases ha : res.annotations.lookup antecedentAnnotationKey with
      | some v => rw [ha] at h; simp at h
      | none => simp [verifyObjs, fetchReqsOf, hm, hr, ha]
    | err e => simp only [hr] at h; simp at h

/-- Processing a passed-over prefix contributes its Get requests in
order and leaves the outcome to the suffix. -/
theorem verifyObjs_append_pass (c : Cluster) (relNs rid : String)
    (pre objs : List KObject)
    (h : ∀ x ∈ pre, passesThrough c relNs x = true) :
    verifyObjs c relNs rid (pre ++ objs) =
      ((verifyObjs c relNs rid objs).1,
        pre.flatMap (fetchReqsOf c relNs) ++ (verifyObjs c relNs rid objs).2) := by
  induction pre with
  | nil => simp
  | cons o pre ih =>
    have hp : passesThrough c relNs o = true := h o (by simp)
    have hrest : ∀ x ∈ pre, passesThrough c relNs x = true :=
      fun x hx => h x (by simp [hx])
    rw [List.cons_append, verifyObjs_cons_pass c relNs rid o (pre ++ objs) hp, ih hrest]
    simp

/-- The loop stops at a descriptor whose live object carries the
annotation, returning the comparison with the expected identifier and
the found value, and issues no request beyond that descriptor. -/
theorem verifyObjs_cons_annotated (c : Cluster) (relNs rid : String) (o : KObject)
    (rest : List KObject) (m : RESTMapping) (res : KObject) (v : String)
    (hm : c.restMapping o.gvk = some m)
    (hr : (retryFetch (c.get m.resource (defaultedNs relNs o.ns) o.name) 0
        (retryDefaultSteps - 1)).1 = FetchResult.ok res)
    (ha : res.annotations.lookup antecedentAnnotationKey = some v) :
    verifyObjs c relNs rid (o :: rest) =
      ((v == rid, v, none), fetchReqsOf c relNs o) := by
  simp [verifyObjs, fetchReqsOf, hm, hr, ha]

/-- Sample live object named b carrying the antecedent annotation. -/
def annotatedObjB : KObject :=
  KObject.mk sampleGvk "default" "b" [(antecedentAnnotationKey, "default:helmrelease/r")]

/-- Sample cluster: everything resolves to the deployments resource,
object a is live and unannotated, object b is live and annotated,
everything else is not found, patches succeed. -/
def sampleCluster : Cluster :=
  Cluster.mk none none (fun _ => some (RESTMapping.mk "deployments"))
    (fun _ _ name _ =>
      if name = "a" then FetchResult.ok objA
      else if name = "b" then FetchResult.ok annotatedObjB
      else FetchResult.err KubeErr.notFound)
    (fun _ _ _ => none)

/-- Sample release whose manifest decomposes to a, b, c. -/
def relABC : Release :=
  Release.mk "default"
    [ManifestDoc.plain objA, ManifestDoc.plain objB, ManifestDoc.plain objC]

/-- Sample release with an empty manifest. -/
def relEmpty : Release := Release.mk "default" []

/-- C1: on the first traversed descriptor whose live object carries the
antecedent annotation with value v, verification returns immediately
with (v == expected, v, no error); the result and the issued requests
do not depend on the descriptors after it. -/
theorem c1_verify_stops_at_first_annotated (c : Cluster) (rel : Release) (rid : String)
    (pre : List KObject) (o : KObject) (rest : List KObject) (m : RESTMapping)
    (res : KObject) (v : String)
    (hc : c.newClientErr = none) (hd : c.discoveryErr = none)
    (hsplit : releaseManifestToUnstructured rel.manifest = pre ++ o :: rest)
    (hpre : ∀ x ∈ pre, passesThrough c rel.ns x = true)
    (hm : c.restMapping o.gvk = some m)
    (hr : (retryFetch (c.get m.resource (defaultedNs rel.ns o.ns) o.name) 0
        (retryDefaultSteps - 1)).1 = FetchResult.ok res)
    (ha : res.annotations.lookup antecedentAnnotationKey = some v) :
    annotatedWithResourceID c rel rid =
      ((v == rid, v, none),
        pre.flatMap (fetchReqsOf c rel.ns) ++ fetchReqsOf c rel.ns o) := by
  simp only [annotatedWithResourceID, hc, hd, hsplit]
  rw [verifyObjs_append_pass c rel.ns rid pre (o :: rest) hpre,
    verifyObjs_cons_annotated c rel.ns rid o rest m res v hm hr ha]

/-- C1 witness: in the sample scenario the loop passes the unannotated
descriptor a, stops at the annotated descriptor b with a matching
identifier, and never addresses descriptor c. -/
theorem c1_verify_stops_at_first_annotated_w :
    annotatedWithResourceID sampleCluster relABC "default:helmrelease/r" =
      ((true, "default:helmrelease/r", none),
        [Req.get "deployments" "default" "a", Req.get "deployments" "default" "b"]) := by
  rw [c1_verify_stops_at_first_annotated sampleCluster relABC "default:helmrelease/r"
    [objA] objB [objC] (RESTMapping.mk "deployments") annotatedObjB
    "default:helmrelease/r" rfl rfl (by decide) (by decide) rfl (by decide) (by decide)]
  decide

/-- C2: when every descriptor of the manifest is passed over (not
resolvable, or fetched successfully without the antecedent annotation),
and in particular when the manifest is empty, verification returns
(true, empty string, no error). -/
theorem c2_exhausted_unclaimed (c : Cluster) (rel : Release) (rid : String)
    (hc : c.newClientErr = none) (hd : c.discoveryErr = none)
    (h : ∀ o ∈ releaseManifestToUnstructured rel.manifest,
        passesThrough c rel.ns o = true) :
    (annotatedWithResourceID c rel rid).1 = (true, "", none) := by
  simp only [annotatedWithResourceID, hc, hd]
  have h2 := verifyObjs_append_pass c rel.ns rid
    (releaseManifestToUnstructured rel.manifest) [] h
  rw [List.append_nil] at h2
  rw [h2]
  rfl

/-- C2 witness: verification of an empty manifest release returns the
unclaimed signal. -/
theorem c2_exhausted_unclaimed_w :
    (annotatedWithResourceID sampleCluster relEmpty "x").1 = (true, "", none) :=
  c2_exhausted_unclaimed sampleCluster relEmpty "x" rfl rfl
    (fun o ho => absurd ho (List.not_mem_nil o))

/-!
Retry behaviour.
-/

/-- The backoff loop stops at an attempt on which the condition is done
and yields that outcome, having performed that one attempt. -/
theorem retryFetch_done (fetch : Nat → FetchResult) (i rem : Nat)
    (h : fetchDone (fetch i) = true) :
    retryFetch fetch i rem = (fetch i, i + 1) := by
  cases rem with
  | zero => rfl
  | succ rem => simp [retryFetch, h]

/-- If the first n attempts are not done (all transient errors) and
attempt n is done, the backoff loop started with enough remaining steps
returns the outcome of attempt n after n + 1 attempts. -/
theorem retryFetch_reaches (fetch : Nat → FetchResult) :
    ∀ (n i rem : Nat), (∀ j, j < n → fetchDone (fetch (i + j)) = false) →
      n ≤ rem → fetchDone (fetch (i + n)) = true →
      retryFetch fetch i rem = (fetch (i + n), i + n + 1) := by
  intro n
  induction n with
  | zero =>
    intro i rem h hle hd
    simpa using retryFetch_done fetch i rem (by simpa using hd)
  | succ n ih =>
    intro i rem h hle hd
    cases rem with
    | zero => omega
    | succ rem =>
      have h0 : fetchDone (fetch i) = false := by simpa using h 0 (Nat.succ_pos n)
      have hidx : ∀ j, j < n → fetchDone (fetch ((i + 1) + j)) = false := by
        intro j hj
        have hh := h (j + 1) (by omega)
        rw [show i + (j + 1) = (i + 1) + j by omega] at hh
        exact hh
      have hd2 : fetchDone (fetch ((i + 1) + n)) = true := by
        rw [show (i + 1) + n = i + (n + 1) by omega]
        exact hd
      have hrec := ih (i + 1) rem hidx (by omega) hd2
      simp only [retryFetch, h0, if_neg, Bool.false_eq_true, if_false]
      rw [hrec, show (i + 1) + n = i + (n + 1) by omega]

/-- The loop aborts with (false, empty, the error) at a descriptor whose
fetch surfaces an error, issuing no request beyond it. -/
theorem verifyObjs_cons_err (c : Cluster) (relNs rid : String) (o : KObject)
    (rest : List KObject) (m : RESTMapping) (e : KubeErr)
    (hm : c.restMapping o.gvk = some m)
    (hr : (retryFetch (c.get m.resource (defaultedNs relNs o.ns) o.name) 0
        (retryDefaultSteps - 1)).1 = FetchResult.err e) :
    verifyObjs c relNs rid (o :: rest) =
      ((false, "", some e), fetchReqsOf c relNs o) := by
  simp [verifyObjs, fetchReqsOf, hm, hr]

/-- Per-attempt outcomes that fail transiently twice, then succeed. -/
def fetchFlaky : Nat → FetchResult :=
  fun n => if n < 2 then FetchResult.err KubeErr.timeout else FetchResult.ok objA

/-- Per-attempt outcomes that always fail with not-found. -/
def fetchNotFound : Nat → FetchResult :=
  fun _ => FetchResult.err KubeErr.notFound

/-- Sample cluster whose Get always fails with not-found. -/
def failingCluster : Cluster :=
  Cluster.mk none none (fun _ => some (RESTMapping.mk "deployments"))
    (fun _ _ _ n => fetchNotFound n) (fun _ _ _ => none)

/-- Sample release whose manifest decomposes to the single descriptor a. -/
def relA : Release := Release.mk "default" [ManifestDoc.plain objA]

/-- C3: the retry wrapper retries exactly the five transient error
classes under the bounded default backoff; a fetch that fails
transiently n times, n below the four attempt ceiling, then succeeds
yields the success after n + 1 attempts with no error; any other error
stops the wrapper at the very attempt it occurs on, and verification
then aborts at that descriptor returning (false, empty, the error). -/
theorem c3_retry_policy :
    (∀ e : KubeErr, isTransient e = true ↔
      (e = KubeErr.connectionReset ∨ e = KubeErr.internalError ∨ e = KubeErr.timeout
        ∨ e = KubeErr.tooManyRequests ∨ e = KubeErr.suggestsDelay))
    ∧ (∀ (fetch : Nat → FetchResult) (n : Nat) (res : KObject),
        n < retryDefaultSteps →
        (∀ j, j < n → ∃ e, fetch j = FetchResult.err e ∧ isTransient e = true) →
        fetch n = FetchResult.ok res →
        retryFetch fetch 0 (retryDefaultSteps - 1) = (FetchResult.ok res, n + 1))
    ∧ (∀ (fetch : Nat → FetchResult) (e : KubeErr),
        fetch 0 = FetchResult.err e → isTransient e = false →
        retryFetch fetch 0 (retryDefaultSteps - 1) = (FetchResult.err e, 1))
    ∧ (∀ (c : Cluster) (rel : Release) (rid : String) (pre : List KObject)
        (o : KObject) (rest : List KObject) (m : RESTMapping) (e : KubeErr),
        c.newClientErr = none → c.discoveryErr = none →
        releaseManifestToUnstructured rel.manifest = pre ++ o :: rest →
        (∀ x ∈ pre, passesThrough c rel.ns x = true) →
        c.restMapping o.gvk = some m →
        (retryFetch (c.get m.resource (defaultedNs rel.ns o.ns) o.name) 0
          (retryDefaultSteps - 1)).1 = FetchResult.err e →
        annotatedWithResourceID c rel rid =
          ((false, "", some e),
            pre.flatMap (fetchReqsOf c rel.ns) ++ fetchReqsOf c rel.ns o)) := by
  refine ⟨?_, ?_, ?_, ?_⟩
  · intro e
    cases e <;> simp [isTransient]
  · intro fetch n res hn htrans hok
    have hpre : ∀ j, j < n → fetchDone (fetch (0 + j)) = false := by
      intro j hj
      obtain ⟨e, he, ht⟩ := htrans j hj
      simp [Nat.zero_add, he, fetchDone, ht]
    have hdone : fetchDone (fetch (0 + n)) = true := by
      simp [Nat.zero_add, hok, fetchDone]
    have := retryFetch_reaches fetch n 0 (retryDefaultSteps - 1) hpre
      (by simp [retryDefaultSteps] at hn ⊢; omega) hdone
    simpa [hok] using this
  · intro fetch e he ht
    have := retryFetch_done fetch 0 (retryDefaultSteps - 1)
      (by simp [he, fetchDone, ht])
    simpa [he] using this
  · intro c rel rid pre o rest m e hc hd hsplit hpass hm hr
    simp only [annotatedWithResourceID, hc, hd, hsplit]
    rw [verifyObjs_append_pass c rel.ns rid pre (o :: rest) hpass,
      verifyObjs_cons_err c rel.ns rid o rest m e hm hr]

/-- C3 witness: two transient timeouts then a success surface the
success after three attempts; an immediate not-found stops after one
attempt; verification of the sample single descriptor release against
the failing cluster aborts with that error after one Get. -/
theorem c3_retry_policy_w :
    retryFetch fetchFlaky 0 (retryDefaultSteps - 1) = (FetchResult.ok objA, 3)
    ∧ retryFetch fetchNotFound 0 (retryDefaultSteps - 1)
        = (FetchResult.err KubeErr.notFound, 1)
    ∧ annotatedWithResourceID failingCluster relA "x" =
        ((false, "", some KubeErr.notFound),
          [Req.get "deployments" "default" "a"]) := by
  refine ⟨?_, ?_, ?_⟩
  · exact c3_retry_policy.2.1 fetchFlaky 2 objA (by decide)
      (fun j hj => ⟨KubeErr.timeout, by
        have hj2 : j = 0 ∨ j = 1 := by omega
        rcases hj2 with h | h <;> subst h <;> exact ⟨rfl, rfl⟩⟩) rfl
  · exact c3_retry_policy.2.2.1 fetchNotFound KubeErr.notFound rfl rfl
  · rw [c3_retry_policy.2.2.2 failingCluster relA "x" [] objA []
      (RESTMapping.mk "deployments") KubeErr.notFound rfl rfl rfl
      (fun x hx => absurd hx (List.not_mem_nil x)) rfl (by decide)]
    decide

/-- C4 counterexample: the two document sequences below are
permutations of one another, so both are iteration orders the Go range
loop over the SplitManifests map may yield for the same two document
manifest whose textual order is a then b; under the second order the
decomposition does not list the descriptors in manifest order. -/
theorem c4_counterexample :
    List.Perm [ManifestDoc.plain objB, ManifestDoc.plain objA]
      [ManifestDoc.plain objA, ManifestDoc.plain objB]
    ∧ releaseManifestToUnstructured [ManifestDoc.plain objB, ManifestDoc.plain objA]
        ≠ [objA, objB] :=
  ⟨List.Perm.swap (ManifestDoc.plain objA) (ManifestDoc.plain objB) [], by decide⟩

/-- C4 (amended): the decomposition emits descriptors document by
document in the order the documents reach the loop, which for a multi
document manifest is the unspecified Go map iteration order rather than
the textual manifest order; within that order a document that fails to
parse contributes nothing, a list wrapper never appears itself, and its
items appear inlined at the position the wrapper is traversed. -/
theorem c4_decomposition_order (docs : List ManifestDoc) :
    releaseManifestToUnstructured docs = docs.flatMap docContribution
    ∧ docContribution ManifestDoc.parseFail = []
    ∧ (∀ (w : KObject) (items : List KObject),
        docContribution (ManifestDoc.listDoc w (some items)) = items) :=
  ⟨releaseManifestToUnstructured_eq_flatMap docs, rfl, fun _ _ => rfl⟩

/-!
Claim loop characterisation and trace membership.
-/

/-- The claim loop processes every descriptor, emitting per descriptor
its Patch request (when the kind resolves) and its log entries; no
failure stops it. -/
theorem claimObjs_eq (c : Cluster) (relNs body : String) (objs : List KObject) :
    claimObjs c relNs body objs =
      (objs.flatMap (claimReqOf c relNs body), objs.flatMap (claimLogOf c relNs)) := by
  induction objs with
  | nil => rfl
  | cons o rest ih =>
    cases hm : c.restMapping o.gvk with
    | none => simp [claimObjs, claimReqOf, claimLogOf, hm, ih]
    | some m =>
      cases hp : c.patchErr m.resource (defaultedNs relNs o.ns) o.name with
      | none => simp [claimObjs, claimReqOf, claimLogOf, hm, hp, ih]
      | some e => simp [claimObjs, claimReqOf, claimLogOf, hm, hp, ih]

/-- Every request the verification loop issues is a Get addressed at a
descriptor of the list through its resolved resource and defaulted
namespace. -/
theorem verifyObjs_trace_mem (c : Cluster) (relNs rid : String) (objs : List KObject) :
    ∀ r ∈ (verifyObjs c relNs rid objs).2, ∃ o ∈ objs, ∃ m,
      c.restMapping o.gvk = some m ∧
      r = Req.get m.resource (defaultedNs relNs o.ns) o.name := by
  induction objs with
  | nil => intro r hr; simp [verifyObjs] at hr
  | cons o rest ih =>
    intro r hr
    cases hm : c.restMapping o.gvk with
    | none =>
      simp only [verifyObjs, hm] at hr
      obtain ⟨o2, ho2, m, hm2, hr2⟩ := ih r hr
      exact ⟨o2, by simp [ho2], m, hm2, hr2⟩
    | some m =>
      simp only [verifyObjs, hm] at hr
      cases hrf : (retryFetch (c.get m.resource (defaultedNs relNs o.ns) o.name) 0
          (retryDefaultSteps - 1)).1 with
      | err e =>
        simp only [hrf] at hr
        exact ⟨o, by simp, m, hm, List.eq_of_mem_replicate hr⟩
      | ok res =>
        simp only [hrf] at hr
        cases ha : res.annotations.lookup antecedentAnnotationKey with
        | some v =>
          simp only [ha] at hr
          exact ⟨o, by simp, m, hm, List.eq_of_mem_replicate hr⟩
        | none =>
          simp only [ha] at hr
          rcases List.mem_append.mp hr with h | h
          · exact ⟨o, by simp, m, hm, List.eq_of_mem_replicate h⟩
          · obtain ⟨o2, ho2, m2, hm2, hr2⟩ := ih r h
            exact ⟨o2, by simp [ho2], m2, hm2, hr2⟩

/-- Replaying a trace of Get requests leaves the backend unchanged. -/
theorem applyReqs_of_gets (w : Store) (t : List Req)
    (h : ∀ r ∈ t, r.isGet = true) : applyReqs w t = w := by
  induction t generalizing w with
  | nil => rfl
  | cons r rest ih =>
    have hr : r.isGet = true := h r (by simp)
    have hstep : stepReq w r = w := by
      cases r with
      | get resource ns name => rfl
      | patch resource ns name body => simp [Req.isGet] at hr
    rw [applyReqs, hstep]
    exact ih w (fun r2 h2 => h r2 (List.mem_cons_of_mem r h2))

/-- Sample kind that does not resolve in the mixed cluster. -/
def gvkCM : GroupVersionKind := GroupVersionKind.mk "" "v1" "ConfigMap"

/-- Sample descriptor with an unresolvable kind and an empty namespace. -/
def objU : KObject := KObject.mk gvkCM "" "u" []

/-- Sample cluster where only the sample kind resolves and patching the
object named a fails. -/
def mixedCluster : Cluster :=
  Cluster.mk none none
    (fun gvk => if gvk.kind = "Deployment" then some (RESTMapping.mk "deployments") else none)
    (fun _ _ _ _ => FetchResult.err KubeErr.notFound)
    (fun _ _ name => if name = "a" then some (KubeErr.other "patch failed") else none)

/-- Sample release mixing an unresolvable descriptor, one whose patch
fails and one whose patch succeeds. -/
def relMix : Release :=
  Release.mk "default"
    [ManifestDoc.plain objU, ManifestDoc.plain objA, ManifestDoc.plain objC]

/-- C5: the claim call returns no error exactly when the dynamic client
and the discovery mapper can be constructed; once the loop is entered,
resolution misses and patch failures are only logged and the loop
emits its per-descriptor requests and log entries for every descriptor
of the manifest. -/
theorem c5_claim_absorbs_per_resource_failures (c : Cluster) (rel : Release)
    (rid : String) :
    ((annotateWithResourceID c rel rid).1 = none ↔
      (c.newClientErr = none ∧ c.discoveryErr = none))
    ∧ (c.newClientErr = none → c.discoveryErr = none →
        (annotateWithResourceID c rel rid).2.1 =
          (releaseManifestToUnstructured rel.manifest).flatMap
            (claimReqOf c rel.ns (annotationJSONString rid))
        ∧ (annotateWithResourceID c rel rid).2.2 =
          (releaseManifestToUnstructured rel.manifest).flatMap (claimLogOf c rel.ns)) := by
  constructor
  · cases hc : c.newClientErr with
    | some e => simp [annotateWithResourceID, hc]
    | none =>
      cases hd : c.discoveryErr with
      | some e => simp [annotateWithResourceID, hc, hd]
      | none => simp [annotateWithResourceID, hc, hd]
  · intro hc hd
    simp [annotateWithResourceID, hc, hd, claimObjs_eq]

/-- C5 witness: on the mixed scenario the claim call returns no error,
and its log records exactly the resolution miss and the one failed
patch while the loop reached every descriptor. -/
theorem c5_claim_absorbs_per_resource_failures_w :
    (annotateWithResourceID mixedCluster relMix "x").1 = none
    ∧ (annotateWithResourceID mixedCluster relMix "x").2.2 =
        [LogEntry.restMappingFailed gvkCM,
          LogEntry.patchFailed "Deployment" "a"] := by
  constructor
  · exact (c5_claim_absorbs_per_resource_failures mixedCluster relMix "x").1.mpr
      ⟨rfl, rfl⟩
  · rw [((c5_claim_absorbs_per_resource_failures mixedCluster relMix "x").2
      rfl rfl).2]
    decide

/-- Every request the claim loop issues is a Patch with the shared body,
addressed at a descriptor of the list through its resolved resource and
defaulted namespace. -/
theorem claimObjs_trace_mem (c : Cluster) (relNs body : String) (objs : List KObject) :
    ∀ r ∈ (claimObjs c relNs body objs).1, ∃ o ∈ objs, ∃ m,
      c.restMapping o.gvk = some m ∧
      r = Req.patch m.resource (defaultedNs relNs o.ns) o.name body := by
  rw [claimObjs_eq]
  intro r hr
  obtain ⟨o, ho, hro⟩ := List.mem_flatMap.mp hr
  cases hm : c.restMapping o.gvk with
  | none => simp [claimReqOf, hm] at hro
  | some m =>
    simp only [claimReqOf, hm, List.mem_singleton] at hro
    exact ⟨o, ho, m, hm, hro⟩

/-- Sample descriptor with an empty namespace. -/
def objE : KObject := KObject.mk sampleGvk "" "e" []

/-- Sample descriptor with an explicit namespace. -/
def objX : KObject := KObject.mk sampleGvk "other" "x0" []

/-- Sample release with one empty namespace descriptor and one explicit
namespace descriptor. -/
def relNsMix : Release :=
  Release.mk "default" [ManifestDoc.plain objE, ManifestDoc.plain objX]

/-- C8: in both verification and claiming every issued request addresses
its descriptor under the defaulted namespace: the namespace of the
release when the descriptor namespace is empty, and the descriptor
namespace unchanged otherwise. -/
theorem c8_namespace_defaulting (c : Cluster) (rel : Release) (rid : String) :
    (defaultedNs rel.ns "" = rel.ns ∧ ∀ ns, ns ≠ "" → defaultedNs rel.ns ns = ns)
    ∧ (∀ r ∈ (annotatedWithResourceID c rel rid).2,
        ∃ o ∈ releaseManifestToUnstructured rel.manifest, ∃ m,
          c.restMapping o.gvk = some m ∧
          r = Req.get m.resource (defaultedNs rel.ns o.ns) o.name)
    ∧ (∀ r ∈ (annotateWithResourceID c rel rid).2.1,
        ∃ o ∈ releaseManifestToUnstructured rel.manifest, ∃ m,
          c.restMapping o.gvk = some m ∧
          r = Req.patch m.resource (defaultedNs rel.ns o.ns) o.name
            (annotationJSONString rid)) := by
  refine ⟨⟨by simp [defaultedNs], fun ns h => by simp [defaultedNs, h]⟩, ?_, ?_⟩
  · intro r hr
    cases hc : c.newClientErr with
    | some e => simp [annotatedWithResourceID, hc] at hr
    | none =>
      cases hd : c.discoveryErr with
      | some e => simp [annotatedWithResourceID, hc, hd] at hr
      | none =>
        simp only [annotatedWithResourceID, hc, hd] at hr
        exact verifyObjs_trace_mem c rel.ns rid _ r hr
  · intro r hr
    cases hc : c.newClientErr with
    | some e => simp [annotateWithResourceID, hc] at hr
    | none =>
      cases hd : c.discoveryErr with
      | some e => simp [annotateWithResourceID, hc, hd] at hr
      | none =>
        simp only [annotateWithResourceID, hc, hd] at hr
        exact claimObjs_trace_mem c rel.ns (annotationJSONString rid) _ r hr

/-- C8 witness: in the sample scenario the Get for the empty namespace
descriptor is addressed under the release namespace, and the Patch for
the explicit namespace descriptor keeps its namespace. -/
theorem c8_namespace_defaulting_w :
    (∃ o ∈ releaseManifestToUnstructured relNsMix.manifest, ∃ m,
      sampleCluster.restMapping o.gvk = some m ∧
      Req.get "deployments" "default" "e" =
        Req.get m.resource (defaultedNs relNsMix.ns o.ns) o.name)
    ∧ (∃ o ∈ releaseManifestToUnstructured relNsMix.manifest, ∃ m,
      sampleCluster.restMapping o.gvk = some m ∧
      Req.patch "deployments" "other" "x0" (annotationJSONString "id") =
        Req.patch m.resource (defaultedNs relNsMix.ns o.ns) o.name
          (annotationJSONString "id")) := by
  constructor
  · exact (c8_namespace_defaulting sampleCluster relNsMix "id").2.1
      (Req.get "deployments" "default" "e") (by decide)
  · exact (c8_namespace_defaulting sampleCluster relNsMix "id").2.2
      (Req.patch "deployments" "other" "x0" (annotationJSONString "id")) (by decide)

/-- Sample empty backend state. -/
def emptyStore : Store := Store.mk (fun _ => none) (fun _ => false)

/-- C9: verification only issues Get requests against the backend, so
replaying its whole request trace leaves any backend state unchanged. -/
theorem c9_verify_read_only (c : Cluster) (rel : Release) (rid : String) :
    (∀ r ∈ (annotatedWithResourceID c rel rid).2, r.isGet = true)
    ∧ ∀ w : Store, applyReqs w (annotatedWithResourceID c rel rid).2 = w := by
  have hg : ∀ r ∈ (annotatedWithResourceID c rel rid).2, r.isGet = true := by
    intro r hr
    cases hc : c.newClientErr with
    | some e => simp [annotatedWithResourceID, hc] at hr
    | none =>
      cases hd : c.discoveryErr with
      | some e => simp [annotatedWithResourceID, hc, hd] at hr
      | none =>
        simp only [annotatedWithResourceID, hc, hd] at hr
        obtain ⟨o, ho, m, hm, hr2⟩ := verifyObjs_trace_mem c rel.ns rid _ r hr
        simp [hr2, Req.isGet]
  exact ⟨hg, fun w => applyReqs_of_gets w _ hg⟩

/-- C9 witness: in the sample scenario the issued request is a Get and
replaying the trace leaves the empty backend state unchanged. -/
theorem c9_verify_read_only_w :
    (Req.get "deployments" "default" "a").isGet = true
    ∧ applyReqs emptyStore (annotatedWithResourceID sampleCluster relABC "x").2
        = emptyStore := by
  constructor
  · exact (c9_verify_read_only sampleCluster relABC "x").1
      (Req.get "deployments" "default" "a") (by decide)
  · exact (c9_verify_read_only sampleCluster relABC "x").2 emptyStore

/-!
Field list lemmas.
-/

/-- Lookup after replacing the same key. -/
theorem lookupKey_setKey_self (k : String) (v : Json) (tf : List (String × Json)) :
    lookupKey k (setKey k v tf) = some v := by
  induction tf with
  | nil => simp [setKey, lookupKey]
  | cons kv rest ih =>
    obtain ⟨k2, w⟩ := kv
    by_cases h : k2 = k
    · simp [setKey, h, lookupKey]
    · simp [setKey, h, lookupKey, ih]

/-- Lookup of another key after replacing a key. -/
theorem lookupKey_setKey_ne (k k2 : String) (v : Json) (tf : List (String × Json))
    (h : k ≠ k2) : lookupKey k2 (setKey k v tf) = lookupKey k2 tf := by
  induction tf with
  | nil => simp [setKey, lookupKey, h]
  | cons kv rest ih =>
    obtain ⟨k3, w⟩ := kv
    by_cases h3 : k3 = k
    · subst h3
      simp [setKey, lookupKey, h]
    · by_cases h2 : k3 = k2
      · subst h2
        simp [setKey, h3, lookupKey]
      · simp [setKey, h3, lookupKey, h2, ih]

/-- Lookup after erasing the same key. -/
theorem lookupKey_eraseKey_self (k : String) (tf : List (String × Json)) :
    lookupKey k (eraseKey k tf) = none := by
  induction tf with
  | nil => simp [eraseKey, lookupKey]
  | cons kv rest ih =>
    obtain ⟨k2, w⟩ := kv
    by_cases h : k2 = k
    · simp [eraseKey, h, ih]
    · simp [eraseKey, h, lookupKey, ih]

/-- Lookup of another key after erasing a key. -/
theorem lookupKey_eraseKey_ne (k k2 : String) (tf : List (String × Json))
    (h : k ≠ k2) : lookupKey k2 (eraseKey k tf) = lookupKey k2 tf := by
  induction tf with
  | nil => simp [eraseKey]
  | cons kv rest ih =>
    obtain ⟨k3, w⟩ := kv
    by_cases h3 : k3 = k
    · subst h3
      simp [eraseKey, lookupKey, h, ih]
    · by_cases h2 : k3 = k2
      · subst h2
        simp [eraseKey, h3, lookupKey]
      · simp [eraseKey, h3, lookupKey, h2, ih]

/-- Replacing a key with the value it already holds changes nothing. -/
theorem setKey_lookup_self (k : String) (v : Json) (tf : List (String × Json))
    (h : lookupKey k tf = some v) : setKey k v tf = tf := by
  induction tf with
  | nil => simp [lookupKey] at h
  | cons kv rest ih =>
    obtain ⟨k2, w⟩ := kv
    by_cases h2 : k2 = k
    · subst h2
      simp [lookupKey] at h
      simp [setKey, h]
    · simp [lookupKey, h2] at h
      simp [setKey, h2, ih h]

/-- Erasing an unbound key changes nothing. -/
theorem eraseKey_lookup_none (k : String) (tf : List (String × Json))
    (h : lookupKey k tf = none) : eraseKey k tf = tf := by
  induction tf with
  | nil => rfl
  | cons kv rest ih =>
    obtain ⟨k2, w⟩ := kv
    by_cases h2 : k2 = k
    · simp [lookupKey, h2] at h
    · simp [lookupKey, h2] at h
      simp [eraseKey, h2, ih h]

/-- Unfolding: folding an empty patch. -/
theorem mergeFields_nil (tf : List (String × Json)) : mergeFields [] tf = tf := by
  rw [mergeFields]

/-- Unfolding: folding one more patch member. -/
theorem mergeFields_cons (k : String) (v : Json) (rest tf : List (String × Json)) :
    mergeFields ((k, v) :: rest) tf = mergeFields rest (applyField k v tf) := by
  rw [mergeFields]

/-- Unfolding: merge patching with an object patch. -/
theorem jsonMergePatch_obj (pf : List (String × Json)) (t : Json) :
    jsonMergePatch (Json.obj pf) t = Json.obj (mergeFields pf (objFields t)) := by
  rw [jsonMergePatch]

/-- Unfolding: a non object patch replaces the target. -/
theorem jsonMergePatch_not_obj (p t : Json) (h : objFields p = [] ∧ p ≠ Json.obj []) :
    jsonMergePatch p t = p := by
  cases p with
  | obj pf =>
    cases pf with
    | nil => exact absurd rfl h.2
    | cons kv rest => simp [objFields] at h
  | null => rw [jsonMergePatch]
  | bool b => rw [jsonMergePatch]
  | num l => rw [jsonMergePatch]
  | str s => rw [jsonMergePatch]
  | arr xs => rw [jsonMergePatch]

/-- isNullB characterisation. -/
theorem isNullB_iff (v : Json) : isNullB v = true ↔ v = Json.null := by
  cases v <;> simp [isNullB]

/-- Member values of a well formed field list are well formed. -/
theorem fieldsWF_mem (pf : List (String × Json)) (hf : fieldsWF pf = true)
    (k : String) (v : Json) (h : (k, v) ∈ pf) : jsonWF v = true := by
  induction pf with
  | nil => cases h
  | cons kv rest ih =>
    rw [fieldsWF, Bool.and_eq_true] at hf
    rcases List.mem_cons.mp h with h1 | h1
    · rw [← h1] at hf
      exact hf.1
    · exact ih hf.2 h1

/-- Head decomposition of key distinctness. -/
theorem keysNodupB_cons (k : String) (v : Json) (rest : List (String × Json))
    (h : keysNodupB ((k, v) :: rest) = true) :
    keyMemB k rest = false ∧ keysNodupB rest = true := by
  rw [keysNodupB, Bool.and_eq_true, Bool.not_eq_true'] at h
  exact h

/-- A key not bound in the patch is untouched by folding the patch
members into a target. -/
theorem lookupKey_mergeFields (pf : List (String × Json)) (k : String)
    (h : keyMemB k pf = false) :
    ∀ tf, lookupKey k (mergeFields pf tf) = lookupKey k tf := by
  induction pf with
  | nil => intro tf; rw [mergeFields_nil]
  | cons kv rest ih =>
    intro tf
    obtain ⟨k2, v⟩ := kv
    rw [keyMemB] at h
    by_cases h2 : k2 = k
    · simp [h2] at h
    · simp only [h2, if_false] at h
      rw [mergeFields_cons, ih h]
      rw [applyField]
      by_cases hv : isNullB v = true
      · simp only [hv, if_true]
        exact lookupKey_eraseKey_ne k2 k tf h2
      · simp only [hv, Bool.false_eq_true, if_false]
        exact lookupKey_setKey_ne k2 k _ tf h2

/-- Folding a patch with pairwise distinct keys and idempotent member
patches twice is the same as folding it once. -/
theorem mergeFields_idem (pf : List (String × Json))
    (hnd : keysNodupB pf = true)
    (hidem : ∀ k v, (k, v) ∈ pf →
      ∀ u, jsonMergePatch v (jsonMergePatch v u) = jsonMergePatch v u) :
    ∀ tf, mergeFields pf (mergeFields pf tf) = mergeFields pf tf := by
  induction pf with
  | nil => intro tf; rw [mergeFields_nil]
  | cons kv rest ih =>
    intro tf
    obtain ⟨k, v⟩ := kv
    obtain ⟨hk, hnd2⟩ := keysNodupB_cons k v rest hnd
    have hidemv : ∀ u, jsonMergePatch v (jsonMergePatch v u) = jsonMergePatch v u :=
      hidem k v (List.mem_cons_self (k, v) rest)
    have hidem2 : ∀ k2 v2, (k2, v2) ∈ rest →
        ∀ u, jsonMergePatch v2 (jsonMergePatch v2 u) = jsonMergePatch v2 u :=
      fun k2 v2 hm => hidem k2 v2 (List.mem_cons_of_mem (k, v) hm)
    rw [mergeFields_cons, mergeFields_cons]
    have hfix : applyField k v (mergeFields rest (applyField k v tf)) =
        mergeFields rest (applyField k v tf) := by
      by_cases hv : isNullB v = true
      · rw [applyField]
        simp only [hv, if_true]
        apply eraseKey_lookup_none
        rw [lookupKey_mergeFields rest k hk]
        rw [applyField]
        simp only [hv, if_true]
        exact lookupKey_eraseKey_self k tf
      · have hlook : lookupKey k (mergeFields rest (applyField k v tf)) =
            some (jsonMergePatch v (lookupD k tf)) := by
          rw [lookupKey_mergeFields rest k hk]
          rw [applyField]
          simp only [hv, Bool.false_eq_true, if_false]
          exact lookupKey_setKey_self k _ tf
        rw [applyField]
        simp only [hv, Bool.false_eq_true, if_false]
        rw [show lookupD k (mergeFields rest (applyField k v tf)) =
            jsonMergePatch v (lookupD k tf) by rw [lookupD, hlook]]
        rw [hidemv (lookupD k tf)]
        exact setKey_lookup_self k _ _ hlook
    rw [hfix]
    exact ih hnd2 hidem2 (applyField k v tf)

/-- Bound on the size of a member value of an object. -/
theorem sizeOf_mem_fields (pf : List (String × Json)) (k : String) (v : Json)
    (h : (k, v) ∈ pf) : sizeOf v < sizeOf (Json.obj pf) := by
  have h1 := List.sizeOf_lt_of_mem h
  have h2 : sizeOf (k, v) = 1 + sizeOf k + sizeOf v := rfl
  simp only [Json.obj.sizeOf_spec]
  omega

/-- Applying a well formed merge patch twice is the same as applying it
once, by strong induction on the size of the patch. -/
theorem jsonMergePatch_idem_of_le : ∀ (n : Nat) (p : Json), sizeOf p ≤ n →
    jsonWF p = true →
    ∀ t, jsonMergePatch p (jsonMergePatch p t) = jsonMergePatch p t := by
  intro n
  induction n with
  | zero =>
    intro p hp
    exfalso
    have : 0 < sizeOf p := by cases p <;> simp
    omega
  | succ n ih =>
    intro p hp hwf t
    cases p with
    | null => rw [jsonMergePatch, jsonMergePatch]
    | bool b => rw [jsonMergePatch, jsonMergePatch]
    | num l => rw [jsonMergePatch, jsonMergePatch]
    | str s2 => rw [jsonMergePatch, jsonMergePatch]
    | arr xs => rw [jsonMergePatch, jsonMergePatch]
    | obj pf =>
      rw [jsonWF, Bool.and_eq_true] at hwf
      have hidem : ∀ k v, (k, v) ∈ pf →
          ∀ u, jsonMergePatch v (jsonMergePatch v u) = jsonMergePatch v u := by
        intro k v hm u
        have hs := sizeOf_mem_fields pf k v hm
        exact ih v (by omega) (fieldsWF_mem pf hwf.2 k v hm) u
      rw [jsonMergePatch_obj, jsonMergePatch_obj, objFields]
      exact congrArg Json.obj (mergeFields_idem pf hwf.1 hidem _)

/-- Idempotence of well formed merge patches, stated directly. -/
theorem jsonMergePatch_idem (p : Json) (hwf : jsonWF p = true) (t : Json) :
    jsonMergePatch p (jsonMergePatch p t) = jsonMergePatch p t :=
  jsonMergePatch_idem_of_le (sizeOf p) p (Nat.le_refl _) hwf t

/-!
The parser only produces well formed values.
-/

/-- Key distinctness is preserved by adding an earlier member that a
later duplicate overrides. -/
theorem keysNodupB_consField (k : String) (v : Json) (fs : List (String × Json))
    (h : keysNodupB fs = true) : keysNodupB (consField k v fs) = true := by
  unfold consField
  by_cases hm : keyMemB k fs = true
  · simp [hm, h]
  · rw [if_neg hm, keysNodupB]
    simp [Bool.not_eq_true] at hm
    simp [hm, h]

/-- Member well formedness is preserved by adding an earlier member. -/
theorem fieldsWF_consField (k : String) (v : Json) (fs : List (String × Json))
    (hv : jsonWF v = true) (h : fieldsWF fs = true) :
    fieldsWF (consField k v fs) = true := by
  unfold consField
  by_cases hm : keyMemB k fs = true
  · simp [hm, h]
  · rw [if_neg hm, fieldsWF]
    simp [hv, h]

/-- Values read by parseValue are well formed, and member lists read by
parseMembers form well formed objects. -/
theorem parser_wf : ∀ fuel : Nat,
    (∀ cs j rest, parseValue fuel cs = some (j, rest) → jsonWF j = true)
    ∧ (∀ cs fs rest, parseMembers fuel cs = some (fs, rest) →
        jsonWF (Json.obj fs) = true) := by
  intro fuel
  induction fuel with
  | zero =>
    constructor
    · intro cs j rest h
      rw [parseValue] at h
      cases h
    · intro cs fs rest h
      rw [parseMembers] at h
      cases h
  | succ fuel ih =>
    constructor
    · intro cs j rest h
      rw [parseValue] at h
      split at h
      · cases h
      · split at h
        · rcases Option.map_eq_some'.mp h with ⟨p, hp, heq⟩
          cases heq
          rw [jsonWF]
        · split at h
          · split at h
            · split at h
              · cases h
                simp [jsonWF, keysNodupB, fieldsWF]
              · rcases Option.map_eq_some'.mp h with ⟨p, hp, heq⟩
                cases heq
                exact ih.2 _ _ _ hp
            · rcases Option.map_eq_some'.mp h with ⟨p, hp, heq⟩
              cases heq
              exact ih.2 _ _ _ hp
          · split at h
            · split at h
              · split at h
                · cases h
                  rw [jsonWF]
                · rcases Option.map_eq_some'.mp h with ⟨p, hp, heq⟩
                  cases heq
                  rw [jsonWF]
              · rcases Option.map_eq_some'.mp h with ⟨p, hp, heq⟩
                cases heq
                rw [jsonWF]
            · split at h
              · split at h
                · cases h
                  rw [jsonWF]
                · cases h
              · split at h
                · split at h
                  · cases h
                    rw [jsonWF]
                  · cases h
                · split at h
                  · split at h
                    · cases h
                      rw [jsonWF]
                    · cases h
                  · split at h
                    · cases h
                      rw [jsonWF]
                    · cases h
    · intro cs fs rest h
      rw [parseMembers] at h
      split at h
      · cases h
      · split at h
        · split at h
          · cases h
          · split at h
            · cases h
            · split at h
              · split at h
                · cases h
                · rename_i hv
                  split at h
                  · cases h
                  · split at h
                    · rcases Option.map_eq_some'.mp h with ⟨p, hp, heq⟩
                      cases heq
                      have hvwf := ih.1 _ _ _ hv
                      have hfs := ih.2 _ _ _ hp
                      rw [jsonWF, Bool.and_eq_true] at hfs
                      rw [jsonWF, Bool.and_eq_true]
                      exact ⟨keysNodupB_consField _ _ _ hfs.1,
                        fieldsWF_consField _ _ _ hvwf hfs.2⟩
                    · split at h
                      · cases h
                        have hvwf := ih.1 _ _ _ hv
                        simp [jsonWF, keysNodupB, fieldsWF, keyMemB, hvwf]
                      · cases h
              · cases h
        · cases h

/-- Well formed JSON documents denote well formed values. -/
theorem parseJson_wf (s : String) (j : Json) (h : parseJson s = some j) :
    jsonWF j = true := by
  rw [parseJson] at h
  split at h
  · rename_i p hp
    split at h
    · cases h
      exact (parser_wf _).1 _ _ _ hp
    · cases h
  · cases h

/-!
Replay of the claim trace: idempotence.
-/

/-- The per-address patch effect is idempotent: the body either fails to
parse (no effect) or parses to a well formed patch, whose merge is
idempotent. -/
theorem patchStep_idem (rej : Bool) (body : String) (o : Option Json) :
    patchStep rej body (patchStep rej body o) = patchStep rej body o := by
  cases o with
  | none => rfl
  | some o =>
    cases rej with
    | true => simp [patchStep]
    | false =>
      cases hp : parseJson body with
      | none => simp [patchStep, hp]
      | some p =>
        simp only [patchStep, Bool.false_eq_true, if_false, hp]
        exact congrArg some (jsonMergePatch_idem p (parseJson_wf body p hp) o)

/-- A request never changes the reject behaviour of the backend. -/
theorem stepReq_rejects (w : Store) (r : Req) : (stepReq w r).rejects = w.rejects := by
  cases r with
  | get resource ns name => rfl
  | patch resource ns name body =>
    rw [stepReq]
    cases ho : w.objects (resource, ns, name) with
    | none => rfl
    | some o =>
      cases hrej : w.rejects (resource, ns, name) with
      | true => simp
      | false =>
        cases hp : parseJson body with
        | none => simp [hp]
        | some p => simp [hp]

/-- Replaying a trace never changes the reject behaviour. -/
theorem applyReqs_rejects (t : List Req) : ∀ w : Store,
    (applyReqs w t).rejects = w.rejects := by
  induction t with
  | nil => intro w; rfl
  | cons r rest ih =>
    intro w
    rw [applyReqs, ih (stepReq w r), stepReq_rejects]

/-- Pointwise effect of one patch request on the stored objects. -/
theorem stepReq_objects_patch (w : Store) (resource ns name body : String) (a : Addr) :
    (stepReq w (Req.patch resource ns name body)).objects a =
      if a = (resource, ns, name) then
        patchStep (w.rejects (resource, ns, name)) body (w.objects (resource, ns, name))
      else w.objects a := by
  rw [stepReq]
  by_cases ha : a = (resource, ns, name)
  · subst ha
    rw [if_pos rfl]
    cases ho : w.objects (resource, ns, name) with
    | none => simp [ho, patchStep]
    | some o =>
      cases hrej : w.rejects (resource, ns, name) with
      | true => simp [ho, hrej, patchStep]
      | false =>
        cases hp : parseJson body with
        | none => simp [ho, hrej, hp, patchStep]
        | some p => simp [ho, hrej, hp, patchStep]
  · rw [if_neg ha]
    cases ho : w.objects (resource, ns, name) with
    | none => rfl
    | some o =>
      cases hrej : w.rejects (resource, ns, name) with
      | true => simp
      | false =>
        cases hp : parseJson body with
        | none => simp [hp]
        | some p => simp [hp, ha]

/-- Replaying a trace all of whose patch bodies are one shared document
acts on each address as the iterated per-address patch effect, once per
patch aimed at the address. -/
theorem applyReqs_objects (b : String) (t : List Req)
    (hb : ∀ resource ns name body,
      Req.patch resource ns name body ∈ t → body = b) :
    ∀ (w : Store) (a : Addr), (applyReqs w t).objects a =
      (patchStep (w.rejects a) b)^[patchCount a t] (w.objects a) := by
  induction t with
  | nil => intro w a; simp [applyReqs, patchCount]
  | cons r rest ih =>
    intro w a
    have hbrest : ∀ resource ns name body,
        Req.patch resource ns name body ∈ rest → body = b :=
      fun resource ns name body hm => hb resource ns name body (List.mem_cons_of_mem r hm)
    cases r with
    | get resource ns name =>
      rw [applyReqs]
      have hid : stepReq w (Req.get resource ns name) = w := rfl
      rw [hid, ih hbrest w a]
      simp [patchCount]
    | patch resource ns name body =>
      have hbody : body = b :=
        hb resource ns name body (List.mem_cons_self _ _)
      rw [hbody] at hb ⊢
      rw [applyReqs, ih hbrest (stepReq w (Req.patch resource ns name b)) a,
        stepReq_rejects, stepReq_objects_patch]
      by_cases ha : a = (resource, ns, name)
      · have hc : patchCount a (Req.patch resource ns name b :: rest) =
            patchCount a rest + 1 := by
          simp [patchCount, ha, Nat.add_comm]
        rw [if_pos ha, ← ha, hc, Function.iterate_succ_apply]
      · rw [if_neg ha]
        have hc : patchCount a (Req.patch resource ns name b :: rest) =
            patchCount a rest := by
          simp [patchCount, ha]
        rw [hc]

/-- Every patch body in the claim trace is the one shared document built
before the loop. -/
theorem claim_trace_bodies (c : Cluster) (rel : Release) (rid : String) :
    ∀ resource ns name body,
      Req.patch resource ns name body ∈ (annotateWithResourceID c rel rid).2.1 →
      body = annotationJSONString rid := by
  intro resource ns name body hm
  cases hc : c.newClientErr with
  | some e => simp [annotateWithResourceID, hc] at hm
  | none =>
    cases hd : c.discoveryErr with
    | some e => simp [annotateWithResourceID, hc, hd] at hm
    | none =>
      simp only [annotateWithResourceID, hc, hd] at hm
      obtain ⟨o, ho, m, hmap, heq⟩ :=
        claimObjs_trace_mem c rel.ns (annotationJSONString rid) _ _ hm
      cases heq
      rfl

/-- Iterating an idempotent function the same number of times twice is
the same as iterating it once. -/
theorem iterate_idem_apply {α : Type} (h : α → α) (hid : ∀ x, h (h x) = h x)
    (n : Nat) (x : α) : h^[n] (h^[n] x) = h^[n] x := by
  cases n with
  | zero => simp
  | succ n =>
    have hfix : ∀ (m : Nat) (y : α), h^[m] (h y) = h y := by
      intro m
      induction m with
      | zero => intro y; simp
      | succ m ih => intro y; rw [Function.iterate_succ_apply, hid, ih]
    have hxx : h^[n + 1] x = h x := by
      rw [Function.iterate_succ_apply]
      exact hfix n x
    rw [hxx, Function.iterate_succ_apply, hid]
    exact hfix n x

/-- C7: claiming with the same identifier is idempotent. The claim call
is a function of the cluster, release and identifier only, so two
consecutive calls issue the same request trace; replaying that trace
twice leaves every stored object, and hence every annotation value on
every successfully patched resource, exactly as after one replay. -/
theorem c7_claim_idempotent (c : Cluster) (rel : Release) (rid : String)
    (w : Store) (a : Addr) :
    (applyReqs (applyReqs w (annotateWithResourceID c rel rid).2.1)
        (annotateWithResourceID c rel rid).2.1).objects a =
      (applyReqs w (annotateWithResourceID c rel rid).2.1).objects a := by
  have hb := claim_trace_bodies c rel rid
  rw [applyReqs_objects (annotationJSONString rid) _ hb
      (applyReqs w (annotateWithResourceID c rel rid).2.1) a,
    applyReqs_objects (annotationJSONString rid) _ hb w a,
    applyReqs_rejects]
  exact iterate_idem_apply _
    (patchStep_idem (w.rejects a) (annotationJSONString rid)) _ _

/-!
Frame properties of the antecedent merge patch.
-/

/-- Members of an object value. -/
theorem objFields_obj (fs : List (String × Json)) :
    objFields (Json.obj fs) = fs := rfl

/-- Fields seen through jGetField are lookups in objFields. -/
theorem jGetField_eq (t : Json) (f : String) :
    jGetField t f = lookupKey f (objFields t) := by
  cases t <;> rfl

/-- Default lookup when the key is bound. -/
theorem lookupD_eq_some (k : String) (tf : List (String × Json)) (v : Json)
    (h : lookupKey k tf = some v) : lookupD k tf = v := by
  rw [lookupD, h]

/-- Default lookup when the key is unbound. -/
theorem lookupD_eq_none (k : String) (tf : List (String × Json))
    (h : lookupKey k tf = none) : lookupD k tf = Json.null := by
  rw [lookupD, h]

/-- Merging the innermost patch layer sets exactly the antecedent key. -/
theorem antecedentPatch_level3 (rid : String) (u : Json) :
    jsonMergePatch (Json.obj [(antecedentAnnotationKey, Json.str rid)]) u =
      Json.obj (setKey antecedentAnnotationKey (Json.str rid) (objFields u)) := by
  rw [jsonMergePatch_obj, mergeFields_cons, mergeFields_nil, applyField]
  simp only [isNullB, Bool.false_eq_true, if_false]
  rw [jsonMergePatch]

/-- Merging the middle patch layer rewrites exactly the annotations
member of its target. -/
theorem antecedentPatch_level2 (rid : String) (u : Json) :
    jsonMergePatch (Json.obj [("annotations",
        Json.obj [(antecedentAnnotationKey, Json.str rid)])]) u =
      Json.obj (setKey "annotations"
        (jsonMergePatch (Json.obj [(antecedentAnnotationKey, Json.str rid)])
          (lookupD "annotations" (objFields u)))
        (objFields u)) := by
  rw [jsonMergePatch_obj, mergeFields_cons, mergeFields_nil, applyField]
  simp only [isNullB, Bool.false_eq_true, if_false]

/-- Merging the antecedent patch rewrites exactly the metadata member of
its target. -/
theorem antecedentPatch_unfold (rid : String) (t : Json) :
    jsonMergePatch (antecedentPatch rid) t =
      Json.obj (setKey "metadata"
        (jsonMergePatch (Json.obj [("annotations",
            Json.obj [(antecedentAnnotationKey, Json.str rid)])])
          (lookupD "metadata" (objFields t)))
        (objFields t)) := by
  rw [antecedentPatch, jsonMergePatch_obj, mergeFields_cons, mergeFields_nil, applyField]
  simp only [isNullB, Bool.false_eq_true, if_false]

/-- The merged object carries the identifier at the antecedent key. -/
theorem antecedentPatch_sets_key (rid : String) (t : Json) :
    jAnnVal (jsonMergePatch (antecedentPatch rid) t) antecedentAnnotationKey
      = some (Json.str rid) := by
  rw [jAnnVal, jMetaField, antecedentPatch_unfold, jGetField_eq, objFields_obj,
    lookupKey_setKey_self]
  simp only [Option.bind_eq_bind, Option.some_bind]
  rw [antecedentPatch_level2, jGetField_eq, objFields_obj, lookupKey_setKey_self]
  simp only [Option.some_bind]
  rw [antecedentPatch_level3, jGetField_eq, objFields_obj, lookupKey_setKey_self]

/-- Any other annotation key reads the same value before and after the
merge. -/
theorem antecedentPatch_other_ann (rid : String) (t : Json) (k : String)
    (hk : k ≠ antecedentAnnotationKey) :
    jAnnVal (jsonMergePatch (antecedentPatch rid) t) k = jAnnVal t k := by
  rw [jAnnVal, jMetaField, antecedentPatch_unfold, jGetField_eq, objFields_obj,
    lookupKey_setKey_self]
  simp only [Option.bind_eq_bind, Option.some_bind]
  rw [antecedentPatch_level2, jGetField_eq, objFields_obj, lookupKey_setKey_self]
  simp only [Option.some_bind]
  rw [antecedentPatch_level3, jGetField_eq, objFields_obj,
    lookupKey_setKey_ne _ _ _ _ (fun h => hk h.symm)]
  rw [jAnnVal, jMetaField, jGetField_eq]
  cases hmeta : lookupKey "metadata" (objFields t) with
  | none =>
    rw [lookupD_eq_none _ _ hmeta]
    simp [objFields, lookupKey]
  | some m0 =>
    rw [lookupD_eq_some _ _ _ hmeta]
    simp only [Option.bind_eq_bind, Option.some_bind]
    rw [jGetField_eq]
    cases hann : lookupKey "annotations" (objFields m0) with
    | none =>
      rw [lookupD_eq_none _ _ hann]
      simp [objFields, lookupKey]
    | some a0 =>
      rw [lookupD_eq_some _ _ _ hann]
      simp only [Option.some_bind]
      rw [jGetField_eq]

/-- Any other top level field reads the same value before and after the
merge. -/
theorem antecedentPatch_other_top (rid : String) (t : Json) (f : String)
    (hf : f ≠ "metadata") :
    jGetField (jsonMergePatch (antecedentPatch rid) t) f = jGetField t f := by
  rw [antecedentPatch_unfold, jGetField_eq, objFields_obj,
    lookupKey_setKey_ne _ _ _ _ (fun h => hf h.symm), jGetField_eq]

/-- Any other metadata member reads the same value before and after the
merge. -/
theorem antecedentPatch_other_meta (rid : String) (t : Json) (g : String)
    (hg : g ≠ "annotations") :
    jMetaField (jsonMergePatch (antecedentPatch rid) t) g = jMetaField t g := by
  rw [jMetaField, antecedentPatch_unfold, jGetField_eq, objFields_obj,
    lookupKey_setKey_self]
  simp only [Option.bind_eq_bind, Option.some_bind]
  rw [antecedentPatch_level2, jGetField_eq, objFields_obj,
    lookupKey_setKey_ne _ _ _ _ (fun h => hg h.symm)]
  rw [jMetaField, jGetField_eq]
  cases hmeta : lookupKey "metadata" (objFields t) with
  | none =>
    rw [lookupD_eq_none _ _ hmeta]
    simp [objFields, lookupKey]
  | some m0 =>
    rw [lookupD_eq_some _ _ _ hmeta]
    simp only [Option.bind_eq_bind, Option.some_bind]
    rw [jGetField_eq]

/-!
Running the reader on the annotation patch body. The identifier is
spliced into the document by plain concatenation, so the document is
well formed exactly as dictated by the characters of the identifier.
-/

theorem skipWs_cons_not (c : Char) (cs : List Char) (h : isJsonWs c = false) :
    skipWs (c :: cs) = c :: cs := by
  simp [skipWs, List.dropWhile_cons, h]

theorem parseValue_succ_quote (fuel : Nat) (r : List Char) :
    parseValue (fuel + 1) ('"' :: r) =
      (parseStringBody r).map (fun p => (Json.str (String.mk p.1), p.2)) := by
  rw [parseValue, skipWs_cons_not '"' r (by decide)]
  rfl


example : parseStringBody ['"'] = some ([], []) := rfl

theorem parseStringBody_cons (c : Char) (rest : List Char) :
    parseStringBody (c :: rest) =
      (if c = '"' then some ([], rest)
       else if c = '\\' then
         (match rest with
          | [] => none
          | e :: rest2 =>
            if e = 'u' then
              (match rest2 with
               | h1 :: h2 :: h3 :: h4 :: r =>
                 (match hexVal h1, hexVal h2, hexVal h3, hexVal h4 with
                  | some a, some b, some c2, some d =>
                    (parseStringBody r).map
                      (fun p => (Char.ofNat (((a * 16 + b) * 16 + c2) * 16 + d) :: p.1, p.2))
                  | _, _, _, _ => none)
               | _ => none)
            else
              (match decodeEscape e with
               | none => none
               | some d => (parseStringBody rest2).map (fun p => (d :: p.1, p.2))))
       else if c.toNat < 32 then none
       else (parseStringBody rest).map (fun p => (c :: p.1, p.2))) := by
  rw [parseStringBody.eq_def]

theorem parseStringBody_clean : ∀ (cs rest : List Char),
    (∀ c ∈ cs, jsonCleanChar c = true) →
    parseStringBody (cs ++ '"' :: rest) = some (cs, rest) := by
  intro cs
  induction cs with
  | nil =>
    intro rest h
    rw [List.nil_append, parseStringBody_cons, if_pos rfl]
  | cons c cs ih =>
    intro rest h
    have hc : jsonCleanChar c = true := h c (List.mem_cons_self c cs)
    simp only [jsonCleanChar, Bool.and_eq_true, bne_iff_ne, ne_eq, decide_eq_true_eq] at hc
    rw [List.cons_append, parseStringBody_cons, if_neg hc.1.1, if_neg hc.1.2,
      if_neg (show ¬ c.toNat < 32 by omega),
      ih rest (fun x hx => h x (List.mem_cons_of_mem c hx))]
    rfl

theorem parseValue_succ_obj_quote (fuel : Nat) (r : List Char) :
    parseValue (fuel + 1) ('\x7b' :: '"' :: r) =
      (parseMembers fuel ('"' :: r)).map (fun p => (Json.obj p.1, p.2)) := by
  rw [parseValue, skipWs_cons_not '\x7b' ('"' :: r) (by decide)]
  rfl

theorem parseMembers_cons (fuel : Nat) (c : Char) (r : List Char)
    (h : isJsonWs c = false) :
    parseMembers (fuel + 1) (c :: r) =
      (if c = '"' then
        match parseStringBody r with
        | none => none
        | some (kcs, r2) =>
          match skipWs r2 with
          | [] => none
          | c2 :: r3 =>
            if c2 = ':' then
              match parseValue fuel r3 with
              | none => none
              | some (v, r4) =>
                match skipWs r4 with
                | [] => none
                | c3 :: r5 =>
                  if c3 = ',' then
                    (parseMembers fuel r5).map
                      (fun p => (consField (String.mk kcs) v p.1, p.2))
                  else if c3 = '\x7d' then some ([(String.mk kcs, v)], r5)
                  else none
            else none
      else none) := by
  rw [parseMembers, skipWs_cons_not c r h]

theorem parseMembers_member (fuel : Nat) (kcs rest : List Char)
    (hk : ∀ c ∈ kcs, jsonCleanChar c = true) :
    parseMembers (fuel + 1) ('"' :: (kcs ++ '"' :: ':' :: rest)) =
      (match parseValue fuel rest with
      | none => none
      | some (v, r4) =>
        match skipWs r4 with
        | [] => none
        | c3 :: r5 =>
          if c3 = ',' then
            (parseMembers fuel r5).map
              (fun p => (consField (String.mk kcs) v p.1, p.2))
          else if c3 = '\x7d' then some ([(String.mk kcs, v)], r5)
          else none) := by
  rw [parseMembers_cons fuel '"' _ (by decide), if_pos rfl,
    parseStringBody_clean kcs (':' :: rest) hk]
  rfl

theorem annotationJSONString_data (rid : String) :
    (annotationJSONString rid).data =
      '\x7b' :: '"' :: ("metadata".data ++ '"' :: ':' ::
        ('\x7b' :: '"' :: ("annotations".data ++ '"' :: ':' ::
          ('\x7b' :: '"' :: ("helm.fluxcd.io/antecedent".data ++ '"' :: ':' ::
            ('"' :: (rid.data ++ '"' :: '\x7d' :: '\x7d' :: '\x7d' :: []))))))) := by
  rw [annotationJSONString, antecedentAnnotationKey]
  rw [String.data_append, String.data_append, String.data_append, String.data_append]
  simp only [List.append_assoc]
  rfl

theorem parseValue_annotation (rid : String)
    (hclean : ∀ c ∈ rid.data, jsonCleanChar c = true) (f : Nat) :
    parseValue (f + 7) ((annotationJSONString rid).data) =
      some (antecedentPatch rid, []) := by
  have h6 : parseValue (f + 1)
      ('"' :: (rid.data ++ '"' :: '\x7d' :: '\x7d' :: '\x7d' :: [])) =
      some (Json.str rid, '\x7d' :: '\x7d' :: '\x7d' :: []) := by
    rw [parseValue_succ_quote,
      parseStringBody_clean rid.data ('\x7d' :: '\x7d' :: '\x7d' :: []) hclean]
    rfl
  have h5 : parseMembers (f + 2)
      ('"' :: ("helm.fluxcd.io/antecedent".data ++ '"' :: ':' ::
        ('"' :: (rid.data ++ '"' :: '\x7d' :: '\x7d' :: '\x7d' :: [])))) =
      some ([(antecedentAnnotationKey, Json.str rid)], '\x7d' :: '\x7d' :: []) := by
    rw [parseMembers_member (f + 1) "helm.fluxcd.io/antecedent".data _ (by decide), h6]
    rfl
  have h4 : parseValue (f + 3)
      ('\x7b' :: '"' :: ("helm.fluxcd.io/antecedent".data ++ '"' :: ':' ::
        ('"' :: (rid.data ++ '"' :: '\x7d' :: '\x7d' :: '\x7d' :: [])))) =
      some (Json.obj [(antecedentAnnotationKey, Json.str rid)], '\x7d' :: '\x7d' :: []) := by
    rw [parseValue_succ_obj_quote, h5]
    rfl
  have h3 : parseMembers (f + 4)
      ('"' :: ("annotations".data ++ '"' :: ':' ::
        ('\x7b' :: '"' :: ("helm.fluxcd.io/antecedent".data ++ '"' :: ':' ::
          ('"' :: (rid.data ++ '"' :: '\x7d' :: '\x7d' :: '\x7d' :: [])))))) =
      some ([("annotations", Json.obj [(antecedentAnnotationKey, Json.str rid)])],
        '\x7d' :: []) := by
    rw [parseMembers_member (f + 3) "annotations".data _ (by decide), h4]
    rfl
  have h2 : parseValue (f + 5)
      ('\x7b' :: '"' :: ("annotations".data ++ '"' :: ':' ::
        ('\x7b' :: '"' :: ("helm.fluxcd.io/antecedent".data ++ '"' :: ':' ::
          ('"' :: (rid.data ++ '"' :: '\x7d' :: '\x7d' :: '\x7d' :: [])))))) =
      some (Json.obj [("annotations", Json.obj [(antecedentAnnotationKey, Json.str rid)])],
        '\x7d' :: []) := by
    rw [parseValue_succ_obj_quote, h3]
    rfl
  have h1 : parseMembers (f + 6)
      ('"' :: ("metadata".data ++ '"' :: ':' ::
        ('\x7b' :: '"' :: ("annotations".data ++ '"' :: ':' ::
          ('\x7b' :: '"' :: ("helm.fluxcd.io/antecedent".data ++ '"' :: ':' ::
            ('"' :: (rid.data ++ '"' :: '\x7d' :: '\x7d' :: '\x7d' :: [])))))))) =
      some ([("metadata",
        Json.obj [("annotations", Json.obj [(antecedentAnnotationKey, Json.str rid)])])],
        []) := by
    rw [parseMembers_member (f + 5) "metadata".data _ (by decide), h2]
    rfl
  rw [annotationJSONString_data, parseValue_succ_obj_quote, h1]
  rfl

theorem annotationJSONString_length (rid : String) :
    (annotationJSONString rid).data.length = rid.data.length + 61 := by
  rw [annotationJSONString_data]
  simp [List.length_append,
    show ("metadata".data.length = 8) from rfl,
    show ("annotations".data.length = 11) from rfl,
    show ("helm.fluxcd.io/antecedent".data.length = 25) from rfl]

theorem parseJson_annotation (rid : String) (hclean : jsonClean rid = true) :
    parseJson (annotationJSONString rid) = some (antecedentPatch rid) := by
  have hclean2 : ∀ c ∈ rid.data, jsonCleanChar c = true :=
    fun c hc => List.all_eq_true.mp
      (show rid.data.all jsonCleanChar = true from hclean) c hc
  rw [parseJson,
    show (annotationJSONString rid).data.length + 1 = (rid.data.length + 55) + 7 by
      rw [annotationJSONString_length],
    parseValue_annotation rid hclean2 (rid.data.length + 55)]
  rfl

/-- The claim loop issues its Patch request for every resolvable
descriptor of the manifest. -/
theorem claim_trace_covers (c : Cluster) (rel : Release) (rid : String)
    (o : KObject) (m : RESTMapping)
    (hc : c.newClientErr = none) (hd : c.discoveryErr = none)
    (ho : o ∈ releaseManifestToUnstructured rel.manifest)
    (hm : c.restMapping o.gvk = some m) :
    Req.patch m.resource (defaultedNs rel.ns o.ns) o.name (annotationJSONString rid)
      ∈ (annotateWithResourceID c rel rid).2.1 := by
  simp only [annotateWithResourceID, hc, hd, claimObjs_eq]
  exact List.mem_flatMap.mpr ⟨o, ho, by simp [claimReqOf, hm]⟩

/-- C6: for every resolvable descriptor the claim loop issues a merge
patch whose body is the shared annotation document; that document
denotes the patch setting exactly the antecedent annotation key to the
identifier, and merging it into any target object leaves every other
annotation, every other metadata member and every other top level field
unchanged. -/
theorem c6_merge_patch_frame (c : Cluster) (rel : Release) (rid : String)
    (o : KObject) (m : RESTMapping) (t : Json) (k f g : String)
    (hc : c.newClientErr = none) (hd : c.discoveryErr = none)
    (ho : o ∈ releaseManifestToUnstructured rel.manifest)
    (hm : c.restMapping o.gvk = some m)
    (hclean : jsonClean rid = true)
    (hk : k ≠ antecedentAnnotationKey) (hf : f ≠ "metadata")
    (hg : g ≠ "annotations") :
    Req.patch m.resource (defaultedNs rel.ns o.ns) o.name (annotationJSONString rid)
        ∈ (annotateWithResourceID c rel rid).2.1
    ∧ parseJson (annotationJSONString rid) = some (antecedentPatch rid)
    ∧ jAnnVal (jsonMergePatch (antecedentPatch rid) t) antecedentAnnotationKey
        = some (Json.str rid)
    ∧ jAnnVal (jsonMergePatch (antecedentPatch rid) t) k = jAnnVal t k
    ∧ jGetField (jsonMergePatch (antecedentPatch rid) t) f = jGetField t f
    ∧ jMetaField (jsonMergePatch (antecedentPatch rid) t) g = jMetaField t g :=
  ⟨claim_trace_covers c rel rid o m hc hd ho hm,
    parseJson_annotation rid hclean,
    antecedentPatch_sets_key rid t,
    antecedentPatch_other_ann rid t k hk,
    antecedentPatch_other_top rid t f hf,
    antecedentPatch_other_meta rid t g hg⟩

/-- Sample target object for the frame witness. -/
def sampleTarget : Json :=
  Json.obj [("metadata", Json.obj [
      ("annotations", Json.obj [("other", Json.str "keep")]),
      ("labels", Json.obj [("app", Json.str "demo")])]),
    ("spec", Json.str "body")]

/-- C6 witness: in the sample scenario the patch for descriptor a is
issued with the shared body, the body denotes the intended patch, and
merging into the sample target rewrites only the antecedent key. -/
theorem c6_merge_patch_frame_w :
    Req.patch "deployments" "default" "a"
        (annotationJSONString "default:helmrelease/r")
        ∈ (annotateWithResourceID sampleCluster relABC "default:helmrelease/r").2.1
    ∧ parseJson (annotationJSONString "default:helmrelease/r") =
        some (antecedentPatch "default:helmrelease/r")
    ∧ jAnnVal (jsonMergePatch (antecedentPatch "default:helmrelease/r") sampleTarget)
        antecedentAnnotationKey = some (Json.str "default:helmrelease/r")
    ∧ jAnnVal (jsonMergePatch (antecedentPatch "default:helmrelease/r") sampleTarget)
        "other" = jAnnVal sampleTarget "other"
    ∧ jGetField (jsonMergePatch (antecedentPatch "default:helmrelease/r") sampleTarget)
        "spec" = jGetField sampleTarget "spec"
    ∧ jMetaField (jsonMergePatch (antecedentPatch "default:helmrelease/r") sampleTarget)
        "labels" = jMetaField sampleTarget "labels" :=
  c6_merge_patch_frame sampleCluster relABC "default:helmrelease/r" objA
    (RESTMapping.mk "deployments") sampleTarget "other" "spec" "labels"
    rfl rfl (by decide) rfl (by decide) (by decide) (by decide) (by decide)

/-- C10 counterexample: the identifier below contains a double quote,
yet splicing it into the patch body yields a document that is well
formed JSON, denoting a patch that also sets a second, unintended
annotation; so an identifier with a JSON special character does not
always make the document ill formed. -/
theorem c10_counterexample :
    ('"' ∈ ("x\",\"y\":\"z").data)
    ∧ parseJson (annotationJSONString "x\",\"y\":\"z") =
      some (Json.obj [("metadata", Json.obj [("annotations",
        Json.obj [(antecedentAnnotationKey, Json.str "x"),
          ("y", Json.str "z")])])]) :=
  ⟨by decide, rfl⟩

/-- C10 (amended): the merge patch body is built once by concatenation,
with the identifier inserted verbatim and no JSON escaping, and every
patch request of one claim call carries that identical byte string; the
document is guaranteed well formed JSON denoting the intended patch
when the identifier contains no double quote, backslash or control
character, while an identifier containing such a character can make it
ill formed (a single double quote does) but can also leave it well
formed with an unintended meaning. -/
theorem c10_patch_body_verbatim (c : Cluster) (rel : Release) (rid : String)
    (hclean : jsonClean rid = true) :
    annotationJSONString rid =
        "\x7b\"metadata\":\x7b\"annotations\":\x7b\"helm.fluxcd.io/antecedent\":\""
          ++ rid ++ "\"\x7d\x7d\x7d"
    ∧ (∀ resource ns name body,
        Req.patch resource ns name body ∈ (annotateWithResourceID c rel rid).2.1 →
        body = annotationJSONString rid)
    ∧ parseJson (annotationJSONString rid) = some (antecedentPatch rid)
    ∧ parseJson (annotationJSONString "\"") = none :=
  ⟨rfl, claim_trace_bodies c rel rid, parseJson_annotation rid hclean, rfl⟩

/-- C10 witness: at a concrete clean identifier the body is the verbatim
splice, parses to the intended patch, and the double quote identifier
yields an ill formed document. -/
theorem c10_patch_body_verbatim_w :
    annotationJSONString "default:helmrelease/r" =
        "\x7b\"metadata\":\x7b\"annotations\":\x7b\"helm.fluxcd.io/antecedent\":\""
          ++ "default:helmrelease/r" ++ "\"\x7d\x7d\x7d"
    ∧ parseJson (annotationJSONString "default:helmrelease/r") =
        some (antecedentPatch "default:helmrelease/r")
    ∧ parseJson (annotationJSONString "\"") = none := by
  have h := c10_patch_body_verbatim sampleCluster relABC "default:helmrelease/r"
    (by decide)
  exact ⟨h.1, h.2.2.1, h.2.2.2⟩
